/-
Verification of the freighter mirror service against its specification.

The development shallowly embeds the relevant parts of the source:
  * `src/download.rs`            — the downloader (`download_to_folder`,
    `download_and_check_hash`)
  * `src/handler/channel.rs`     — channel-manifest parsing and history sync
  * `src/handler/crates_file.rs` — per-crate download with journaling and the
    repair pass
  * `src/handler/mod.rs`         — the index path rule
  * `src/server/file_server.rs`  — the serving layer and the publish endpoint

External collaborators are modelled as parameters: the SHA-256 hex digest is an
abstract function `HashFn` (the sha2 crate), the network is a function from URL
to an HTTP outcome (reqwest), percent-encoding is an abstract `String → String`
(the url crate), and serde parsing of the publish JSON is an abstract partial
function.  File paths are strings joined with `/`; the filesystem is an
association list from path to byte list.  A Rust `panic!`/`unwrap` failure is
modelled by `Option`/`none` (or, inside a rayon scope, by a `panicked` flag:
rayon completes all spawned tasks before propagating the first panic out of
`scope`, so sibling tasks still run, and code after the scope does not).
-/

import Mathlib

set_option linter.unusedVariables false

/-- Byte strings are lists of naturals (each < 256 where it matters). -/
abbrev Bytes := List Nat

/-- A filesystem: association list from path (string) to file content. -/
abbrev FS := List (String × Bytes)

/-- Read a file: first matching entry wins. -/
def fsRead (fs : FS) (p : String) : Option Bytes :=
  (fs.find? (fun e => e.1 == p)).map Prod.snd

/-- `File::create` + write: the new entry shadows any previous one. -/
def fsWrite (fs : FS) (p : String) (b : Bytes) : FS :=
  (p, b) :: fs

/-- `fs::remove_file`. -/
def fsRemove (fs : FS) (p : String) : FS :=
  fs.filter (fun e => e.1 != p)

/-- Outcome of one HTTP GET, as observed by `BlockingReqwest`:
a 2xx response with a body, a non-2xx status, or a transport error
(the `?` on `send()` in `download_to_folder`). -/
inductive HttpResult where
  | ok (body : Bytes)
  | badStatus
  | connErr
deriving DecidableEq, Repr

/-- The network: what one GET of a URL returns. -/
abbrev Net := String → HttpResult

/-- Abstract hex SHA-256 digest function (sha2 crate). -/
abbrev HashFn := Bytes → String

/-- `BlockingReqwest::download_to_folder` (src/download.rs:40-71): GET the
URL; on 2xx stream the body into a freshly created file at `path` and return
`Ok(true)`; on any other status return `Ok(false)` without touching the file;
a transport error (the `?` on `send()`) propagates as `Err`.  The `Err`
carries the filesystem as it stands when the error is raised — the Rust `?`
returns early but disk effects already performed (none inside this function,
but the caller may have deleted a file first) persist.  The huaweicloud
percent-encoding of the URL is a rewrite of the request URL and is absorbed
into `net`. -/
def download_to_folder (net : Net) (url : String) (path : String) (fs : FS) :
    Except FS (Bool × FS) :=
  match net url with
  | HttpResult.ok body => Except.ok (true, fsWrite fs path body)
  | HttpResult.badStatus => Except.ok (false, fs)
  | HttpResult.connErr => Except.error fs

/-- `download_and_check_hash` (src/download.rs:109-144).  If the file already
exists its digest is computed; with `check_sum = some cs` a match returns
`Ok(false)` (skipped) and a mismatch removes the file and re-fetches once;
with no checksum and `is_override = false` the download is skipped; in every
other case the body is fetched to the path.  An `Err` carries the on-disk
state at the failure: in particular the mismatch branch's
`fs::remove_file(path)` (src/download.rs:132) has already happened when the
subsequent fetch errors, so the file stays deleted. -/
def download_and_check_hash (h : HashFn) (net : Net) (url path : String)
    (check_sum : Option String) (is_override : Bool) (fs : FS) :
    Except FS (Bool × FS) :=
  match fsRead fs path with
  | some content =>
    let hex := h content
    match check_sum with
    | some cs =>
      if hex = cs then
        Except.ok (false, fs)
      else
        download_to_folder net url path (fsRemove fs path)
    | none =>
      if !is_override then
        Except.ok (false, fs)
      else
        download_to_folder net url path fs
  | none => download_to_folder net url path fs

theorem fsRead_fsWrite_self (fs : FS) (p : String) (b : Bytes) :
    fsRead (fsWrite fs p b) p = some b := by
  simp [fsRead, fsWrite, List.find?]

theorem download_to_folder_ok_true (net : Net) (url path : String) (fs fs' : FS)
    (hres : download_to_folder net url path fs = Except.ok (true, fs')) :
    ∃ b, net url = HttpResult.ok b ∧ fs' = fsWrite fs path b := by
  unfold download_to_folder at hres
  cases hn : net url <;> simp [hn] at hres
  case ok body => exact ⟨body, rfl, hres.symm⟩

/-- C1, counterexample.  A fresh download whose response body hashes to `"aa"`
while the expected hash is `"bb"` still reports `Downloaded` (`Ok(true)`) and
leaves the unverified body on disk: the code never hashes the bytes it just
fetched. -/
theorem C1_counterexample :
    download_and_check_hash (fun _ => "aa") (fun _ => HttpResult.ok [1, 2, 3])
        "u" "p" (some "bb") false []
      = Except.ok (true, [("p", [1, 2, 3])])
    ∧ (fun (_ : Bytes) => "aa") [1, 2, 3] ≠ "bb" := by
  exact ⟨rfl, by decide⟩

/-- C1, amended.  The expected hash is checked only against a file already on
disk before the fetch: such a mismatch deletes the file and causes exactly one
in-band re-fetch, and a `Downloaded` result guarantees only that the file now
holds the HTTP response body — the re-fetched bytes are not verified against
the expected hash. -/
theorem C1_amended :
    (∀ (h : HashFn) (net : Net) (url path : String) (cs : Option String)
        (ov : Bool) (fs fs' : FS),
      download_and_check_hash h net url path cs ov fs = Except.ok (true, fs') →
      ∃ b, net url = HttpResult.ok b ∧ fsRead fs' path = some b)
    ∧ (∀ (h : HashFn) (net : Net) (url path cs : String) (ov : Bool)
        (fs : FS) (content : Bytes),
      fsRead fs path = some content → h content ≠ cs →
      download_and_check_hash h net url path (some cs) ov fs
        = download_to_folder net url path (fsRemove fs path)) := by
  constructor
  · intro h net url path cs ov fs fs' hres
    unfold download_and_check_hash at hres
    have step : ∀ fs₀ : FS,
        download_to_folder net url path fs₀ = Except.ok (true, fs') →
        ∃ b, net url = HttpResult.ok b ∧ fsRead fs' path = some b := by
      intro fs₀ hd
      obtain ⟨b, hb, hfs⟩ := download_to_folder_ok_true net url path fs₀ fs' hd
      exact ⟨b, hb, hfs ▸ fsRead_fsWrite_self fs₀ path b⟩
    cases hr : fsRead fs path with
    | some content =>
      rw [hr] at hres
      cases cs with
      | some c =>
        by_cases hc : h content = c
        · simp [hc] at hres
        · simp only [hc, if_false] at hres
          exact step _ hres
      | none =>
        cases ov with
        | false => simp at hres
        | true => exact step _ hres
    | none =>
      rw [hr] at hres
      exact step _ hres
  · intro h net url path cs ov fs content hr hne
    unfold download_and_check_hash
    rw [hr]
    simp [hne]

/-- C1 amended, witness: both conjuncts applied at concrete inputs. -/
theorem C1_amended_witness :
    (∃ b, (fun (_ : String) => HttpResult.ok [7]) "u" = HttpResult.ok b
        ∧ fsRead [("p", [7])] "p" = some b)
    ∧ download_and_check_hash (fun _ => "aa") (fun _ => HttpResult.ok [7])
        "u" "p" (some "bb") false [("p", [9])]
      = download_to_folder (fun _ => HttpResult.ok [7]) "u" "p"
          (fsRemove [("p", [9])] "p") := by
  constructor
  · exact C1_amended.1 (fun _ => "aa") (fun _ => HttpResult.ok [7]) "u" "p"
      (some "bb") false [("p", [9])] [("p", [7])] rfl
  · exact C1_amended.2 (fun _ => "aa") (fun _ => HttpResult.ok [7]) "u" "p"
      "bb" false [("p", [9])] [9] rfl (by decide)

/-- C9.  When the target file exists and its digest equals the supplied
expected hash, the downloader returns `Skipped` (`Ok(false)`) with the
filesystem unchanged — and the result does not depend on `net` at all, so no
network fetch is performed. -/
theorem C9_skip_when_hash_matches (h : HashFn) (net : Net) (url path cs : String)
    (ov : Bool) (fs : FS) (content : Bytes)
    (hfile : fsRead fs path = some content) (hmatch : h content = cs) :
    download_and_check_hash h net url path (some cs) ov fs
      = Except.ok (false, fs) := by
  unfold download_and_check_hash
  rw [hfile]
  simp [hmatch]

/-- C9, witness at a concrete state (note `net` answers every request, yet the
existing correct file short-circuits the call). -/
theorem C9_witness :
    download_and_check_hash (fun _ => "aa") (fun _ => HttpResult.ok [5])
        "u" "p" (some "aa") false [("p", [1, 2])]
      = Except.ok (false, [("p", [1, 2])]) :=
  C9_skip_when_hash_matches (fun _ => "aa") (fun _ => HttpResult.ok [5])
    "u" "p" "aa" false [("p", [1, 2])] [1, 2] rfl rfl

/-- One line of a crate index file (src/handler/crates_file.rs:93-108).  Only
the fields the sync pipeline reads — `name`, `vers`, `cksum` — are modelled;
`deps`, `features`, `yanked`, `links`, `v` are carried through serde untouched
and never consulted by the code under verification. -/
structure IndexFile where
  name : String
  vers : String
  cksum : Option String
deriving DecidableEq, Repr

/-- One record of the error journal (src/handler/crates_file.rs:110-115);
serde writes it as one JSON object, and the journal appends one such object
plus a newline per failure, so the journal file is modelled as a list of
records. -/
structure ErrorCrate where
  name : String
  vers : String
  time : String
deriving DecidableEq, Repr

/-- `utils::index_suffix` (src/handler/mod.rs:36-42).  `none` models the
byte-slice panic of the `_` arm (`&name[0..2]`) on the empty name. -/
def index_suffix (name : String) : Option String :=
  if name.length = 0 then none
  else if name.length ≤ 2 then
    some (toString name.length ++ "/" ++ name)
  else if name.length = 3 then
    some (toString name.length ++ "/" ++ name.take 1 ++ "/" ++ name)
  else
    some (name.take 2 ++ "/" ++ (name.drop 2).take 2 ++ "/" ++ name)

/-- Download URL for one index entry
(src/handler/crates_file.rs:321-325): `<domain>/<name>/<name>-<vers>.crate`. -/
def crate_url (domain : String) (c : IndexFile) : String :=
  domain ++ "/" ++ c.name ++ "/" ++ c.name ++ "-" ++ c.vers ++ ".crate"

/-- Local target path for one index entry
(src/handler/crates_file.rs:327-330): `<crates_path>/<name>/<name>-<vers>.crate`. -/
def crate_file_path (crates_path : String) (c : IndexFile) : String :=
  crates_path ++ "/" ++ c.name ++ "/" ++ c.name ++ "-" ++ c.vers ++ ".crate"

/-- `download_crates_with_log` (src/handler/crates_file.rs:350-397).
`none` is the `index_file.cksum.unwrap()` panic; otherwise
`some ((fs', journal'), ok)` where `ok = false` is the `Err` return (which the
spawning worker then `.unwrap()`s into a panic).  On `Ok` with `upload` set the
S3 outcome is the external parameter `upload_ok`; a successful upload with
`delete_after_upload` removes the local file.  Only a downloader `Err` appends
a journal record — exactly one, whole — and a non-2xx response surfaces as
`Ok(false)` with no record.  On `Err` the worker's filesystem is the state
the downloader left behind (a mismatched pre-existing file stays deleted). -/
def download_crates_with_log (h : HashFn) (net : Net)
    (upload delete_after_upload upload_ok : Bool)
    (path url : String) (c : IndexFile) (time : String)
    (fs : FS) (journal : List ErrorCrate) :
    Option ((FS × List ErrorCrate) × Bool) :=
  match c.cksum with
  | none => none
  | some cs =>
    match download_and_check_hash h net url path (some cs) false fs with
    | Except.ok (succ, fs') =>
      let fs'' := if succ && upload && upload_ok && delete_after_upload
                  then fsRemove fs' path else fs'
      some ((fs'', journal), true)
    | Except.error fsE =>
      some ((fsE, journal ++ [⟨c.name, c.vers, time⟩]), false)

/-- C3, counterexample.  A task whose HTTP fetch answers with a non-2xx status
is a failed download (`download_succ = false` after an attempted fetch of an
absent file), yet the function returns `Ok` with the journal unchanged: no
record is appended for non-2xx failures. -/
theorem C3_counterexample :
    (fun (_ : String) => HttpResult.badStatus) "u" = HttpResult.badStatus
    ∧ download_crates_with_log (fun _ => "aa") (fun _ => HttpResult.badStatus)
        false false false "p" "u" ⟨"foo", "1.0.0", some "cs"⟩ "t" [] []
      = some (([], []), true) :=
  ⟨rfl, rfl⟩

/-- C3, amended.  Exactly one whole record `{name, vers, time}` (one JSON
line) is appended to the journal when and only when the downloader returns a
transport-level `Err` (the worker's disk state being whatever the downloader
left — a mismatched pre-existing file stays deleted); an HTTP non-2xx
response (like every `Ok` outcome) leaves the journal unchanged, and the
worker returns so the pool continues. -/
theorem C3_amended :
    (∀ (h : HashFn) (net : Net) (up dl uok : Bool) (path url : String)
        (c : IndexFile) (time : String) (fs : FS) (journal : List ErrorCrate)
        (cs : String) (fsE : FS),
      c.cksum = some cs →
      download_and_check_hash h net url path (some cs) false fs
        = Except.error fsE →
      download_crates_with_log h net up dl uok path url c time fs journal
        = some ((fsE, journal ++ [⟨c.name, c.vers, time⟩]), false))
    ∧ (∀ (h : HashFn) (net : Net) (up dl uok : Bool) (path url : String)
        (c : IndexFile) (time : String) (fs : FS) (journal : List ErrorCrate)
        (cs : String) (succ : Bool) (fs' : FS),
      c.cksum = some cs →
      download_and_check_hash h net url path (some cs) false fs
        = Except.ok (succ, fs') →
      ∃ fs'', download_crates_with_log h net up dl uok path url c time fs journal
        = some ((fs'', journal), true)) := by
  constructor
  · intro h net up dl uok path url c time fs journal cs fsE hc hd
    unfold download_crates_with_log
    rw [hc]
    dsimp only
    rw [hd]
  · intro h net up dl uok path url c time fs journal cs succ fs' hc hd
    refine ⟨if succ && up && uok && dl then fsRemove fs' path else fs', ?_⟩
    unfold download_crates_with_log
    rw [hc]
    dsimp only
    rw [hd]

/-- C3 amended, witness: a transport error appends the single record; a
non-2xx fetch leaves the journal as it was. -/
theorem C3_amended_witness :
    download_crates_with_log (fun _ => "aa") (fun _ => HttpResult.connErr)
        false false false "p" "u" ⟨"foo", "1.0.0", some "cs"⟩ "t" [] []
      = some (([], [⟨"foo", "1.0.0", "t"⟩]), false)
    ∧ ∃ fs'', download_crates_with_log (fun _ => "aa") (fun _ => HttpResult.badStatus)
        false false false "p" "u" ⟨"foo", "1.0.0", some "cs"⟩ "t" [] []
      = some ((fs'', []), true) :=
  ⟨C3_amended.1 (fun _ => "aa") (fun _ => HttpResult.connErr) false false false
      "p" "u" ⟨"foo", "1.0.0", some "cs"⟩ "t" [] [] "cs" [] rfl rfl,
   C3_amended.2 (fun _ => "aa") (fun _ => HttpResult.badStatus) false false false
      "p" "u" ⟨"foo", "1.0.0", some "cs"⟩ "t" [] [] "cs" false [] rfl rfl⟩

/-- The fixed context a crate sync run carries (a pure rendering of
`CratesOptions` plus the external collaborators): digest function, network,
upload flags and S3 outcome, upstream domain, the `crates` root, the index
checkout root, the parsed index tree (path → parsed lines) and the run's
timestamp. -/
structure CratesCtx where
  h : HashFn
  net : Net
  upload : Bool
  delete_after_upload : Bool
  upload_ok : Bool
  domain : String
  crates_path : String
  index_root : String
  index_fs : List (String × List IndexFile)
  time : String

/-- Look a file up in the parsed index tree. -/
def index_lookup (ifs : List (String × List IndexFile)) (p : String) :
    Option (List IndexFile) :=
  (ifs.find? (fun e => e.1 == p)).map Prod.snd

/-- State threaded through one repair pass: the artifact filesystem, the error
journal (opened in append mode at the start of the pass), the set of crate
names already handled, and whether some spawned worker has panicked (rayon
completes every spawned task before propagating the first panic at the end of
`thread_pool.scope`). -/
structure PassState where
  fs : FS
  journal : List ErrorCrate
  visited : List String
  panicked : Bool
deriving DecidableEq, Repr

/-- One spawned worker (the closure in
src/handler/crates_file.rs:332-334): run `download_crates_with_log` on one
index line and `.unwrap()` the result, so a `cksum.unwrap()` panic or an `Err`
marks the worker panicked. -/
def run_crate_task (ctx : CratesCtx) (st : PassState) (c : IndexFile) : PassState :=
  match download_crates_with_log ctx.h ctx.net ctx.upload ctx.delete_after_upload
      ctx.upload_ok (crate_file_path ctx.crates_path c) (crate_url ctx.domain c)
      c ctx.time st.fs st.journal with
  | none => { st with panicked := true }
  | some ((fs', j'), ok) =>
    { st with fs := fs', journal := j', panicked := st.panicked || !ok }

/-- `parse_index_and_download` (src/handler/crates_file.rs:305-348): open the
index file (a missing file is only a warning and spawns nothing) and spawn one
download task per line. -/
def parse_index_and_download (ctx : CratesCtx) (index_path : String)
    (st : PassState) : PassState :=
  match index_lookup ctx.index_fs index_path with
  | none => st
  | some entries => entries.foldl (run_crate_task ctx) st

/-- One iteration of the journal loop of `fix_download`
(src/handler/crates_file.rs:235-252): skip names already visited, otherwise
resolve the index path (`none` is the `index_suffix` slice panic on the main
thread, which aborts the pass) and re-submit every version of the crate. -/
def process_error_line (ctx : CratesCtx) (st : PassState) (e : ErrorCrate) :
    Option PassState :=
  if st.visited.contains e.name then some st
  else
    match index_suffix e.name with
    | none => none
    | some suffix =>
      let st' := parse_index_and_download ctx (ctx.index_root ++ "/" ++ suffix) st
      some { st' with visited := st'.visited ++ [e.name] }

/-- `fix_download` (src/handler/crates_file.rs:222-260).  With a crate name:
one targeted re-download, journal file kept.  Without: replay the error
journal; after the scope, `fs::remove_file` deletes the journal file — but
only when no worker panicked, because a worker panic propagates out of
`thread_pool.scope` first and skips the removal.  The second component of the
result is the journal file after the pass (`none` = file removed). -/
def fix_download (ctx : CratesCtx) (crates_name : Option String)
    (journal0 : List ErrorCrate) (fs0 : FS) :
    Option (FS × Option (List ErrorCrate)) :=
  match crates_name with
  | some name =>
    match index_suffix name with
    | none => none
    | some suffix =>
      let st := parse_index_and_download ctx (ctx.index_root ++ "/" ++ suffix)
        ⟨fs0, journal0, [], false⟩
      some (st.fs, some st.journal)
  | none =>
    match journal0.foldlM (process_error_line ctx) (⟨fs0, journal0, [], false⟩ : PassState) with
    | none => none
    | some st =>
      if st.panicked then some (st.fs, some st.journal)
      else some (st.fs, none)

theorem download_crates_with_log_journal_extend (h : HashFn) (net : Net)
    (up dl uok : Bool) (path url : String) (c : IndexFile) (time : String)
    (fs : FS) (journal : List ErrorCrate) (r : (FS × List ErrorCrate) × Bool)
    (hr : download_crates_with_log h net up dl uok path url c time fs journal
            = some r) :
    ∃ t, r.1.2 = journal ++ t := by
  unfold download_crates_with_log at hr
  cases hc : c.cksum with
  | none => rw [hc] at hr; cases hr
  | some cs =>
    rw [hc] at hr
    dsimp only at hr
    cases hd : download_and_check_hash h net url path (some cs) false fs with
    | ok p =>
      obtain ⟨succ, fs'⟩ := p
      rw [hd] at hr
      dsimp only at hr
      cases hr
      exact ⟨[], by simp⟩
    | error e =>
      rw [hd] at hr
      dsimp only at hr
      cases hr
      exact ⟨[⟨c.name, c.vers, time⟩], rfl⟩

theorem run_crate_task_journal_extend (ctx : CratesCtx) (st : PassState)
    (c : IndexFile) :
    ∃ t, (run_crate_task ctx st c).journal = st.journal ++ t := by
  unfold run_crate_task
  cases hr : download_crates_with_log ctx.h ctx.net ctx.upload
      ctx.delete_after_upload ctx.upload_ok (crate_file_path ctx.crates_path c)
      (crate_url ctx.domain c) c ctx.time st.fs st.journal with
  | none => exact ⟨[], by simp⟩
  | some r =>
    obtain ⟨⟨f, j⟩, ok⟩ := r
    obtain ⟨t, ht⟩ := download_crates_with_log_journal_extend _ _ _ _ _ _ _ _ _
      _ _ _ hr
    exact ⟨t, by simpa using ht⟩

theorem foldl_run_crate_task_journal_extend (ctx : CratesCtx)
    (entries : List IndexFile) :
    ∀ st : PassState,
      ∃ t, (entries.foldl (run_crate_task ctx) st).journal = st.journal ++ t := by
  induction entries with
  | nil => intro st; exact ⟨[], by simp⟩
  | cons c rest ih =>
    intro st
    obtain ⟨t₁, h₁⟩ := run_crate_task_journal_extend ctx st c
    obtain ⟨t₂, h₂⟩ := ih (run_crate_task ctx st c)
    exact ⟨t₁ ++ t₂, by simp [List.foldl_cons, h₂, h₁]⟩

theorem process_error_line_journal_extend (ctx : CratesCtx) (st : PassState)
    (e : ErrorCrate) (st' : PassState)
    (hp : process_error_line ctx st e = some st') :
    ∃ t, st'.journal = st.journal ++ t := by
  unfold process_error_line at hp
  cases hv : st.visited.contains e.name with
  | true =>
    rw [hv] at hp
    simp only [if_true] at hp
    cases hp
    exact ⟨[], by simp⟩
  | false =>
    rw [hv] at hp
    simp only [Bool.false_eq_true, if_false] at hp
    cases hs : index_suffix e.name with
    | none => rw [hs] at hp; cases hp
    | some suffix =>
      rw [hs] at hp
      dsimp only at hp
      cases hp
      dsimp only
      unfold parse_index_and_download
      cases index_lookup ctx.index_fs (ctx.index_root ++ "/" ++ suffix) with
      | none => exact ⟨[], by simp⟩
      | some entries => exact foldl_run_crate_task_journal_extend ctx entries st

theorem foldlM_process_journal_extend (ctx : CratesCtx)
    (es : List ErrorCrate) :
    ∀ st st' : PassState,
      es.foldlM (process_error_line ctx) st = some st' →
      ∃ t, st'.journal = st.journal ++ t := by
  induction es with
  | nil =>
    intro st st' hfold
    simp [List.foldlM] at hfold
    exact ⟨[], by simp [← hfold]⟩
  | cons e rest ih =>
    intro st st' hfold
    rw [List.foldlM_cons] at hfold
    cases hp : process_error_line ctx st e with
    | none => rw [hp] at hfold; cases hfold
    | some st₁ =>
      rw [hp] at hfold
      obtain ⟨t₁, h₁⟩ := process_error_line_journal_extend ctx st e st₁ hp
      obtain ⟨t₂, h₂⟩ := ih st₁ st' hfold
      exact ⟨t₁ ++ t₂, by simp [h₂, h₁]⟩

/-- C5, counterexample.  A no-name repair pass over a one-record journal whose
crate fails again (transport error): one task failed during the pass, yet the
journal file afterwards holds two records — the stale pre-pass record plus the
newly appended one — not "exactly one record for each task that failed during
that pass". -/
theorem C5_counterexample :
    fix_download ⟨fun _ => "aa", fun _ => HttpResult.connErr, false, false, false,
        "d", "crates", "idx", [("idx/3/f/foo", [⟨"foo", "1.0.0", some "cs"⟩])], "t1"⟩
        none [⟨"foo", "1.0.0", "t0"⟩] []
      = some ([], some [⟨"foo", "1.0.0", "t0"⟩, ⟨"foo", "1.0.0", "t1"⟩])
    ∧ [(⟨"foo", "1.0.0", "t0"⟩ : ErrorCrate), ⟨"foo", "1.0.0", "t1"⟩]
        ≠ [⟨"foo", "1.0.0", "t1"⟩] :=
  ⟨rfl, by decide⟩

/-- C5, amended.  A no-name repair pass that completes with no worker panic
(no new failure) removes the error journal file; when some task fails, the
worker panic propagates out of the scope before `fs::remove_file`, so the
journal file survives and holds the pre-pass records followed by the records
appended during the pass — each failed task having appended exactly one whole
record, its worker leaving the disk exactly as the downloader did (so a
mismatched pre-existing file it deleted stays deleted). -/
theorem C5_amended :
    (∀ (ctx : CratesCtx) (journal0 : List ErrorCrate) (fs0 : FS) (st : PassState),
      journal0.foldlM (process_error_line ctx)
          (⟨fs0, journal0, [], false⟩ : PassState) = some st →
      st.panicked = false →
      fix_download ctx none journal0 fs0 = some (st.fs, none))
    ∧ (∀ (ctx : CratesCtx) (journal0 : List ErrorCrate) (fs0 : FS) (st : PassState),
      journal0.foldlM (process_error_line ctx)
          (⟨fs0, journal0, [], false⟩ : PassState) = some st →
      st.panicked = true →
      fix_download ctx none journal0 fs0 = some (st.fs, some st.journal)
      ∧ ∃ t, st.journal = journal0 ++ t)
    ∧ (∀ (ctx : CratesCtx) (st : PassState) (c : IndexFile) (cs : String)
        (fsE : FS),
      c.cksum = some cs →
      download_and_check_hash ctx.h ctx.net (crate_url ctx.domain c)
          (crate_file_path ctx.crates_path c) (some cs) false st.fs
        = Except.error fsE →
      run_crate_task ctx st c
        = { st with fs := fsE,
                    journal := st.journal ++ [⟨c.name, c.vers, ctx.time⟩],
                    panicked := true }) := by
  refine ⟨?_, ?_, ?_⟩
  · intro ctx journal0 fs0 st hfold hpan
    unfold fix_download
    rw [hfold]
    dsimp only
    rw [hpan]
    simp
  · intro ctx journal0 fs0 st hfold hpan
    constructor
    · unfold fix_download
      rw [hfold]
      dsimp only
      rw [hpan]
      simp
    · have := foldlM_process_journal_extend ctx journal0
        ⟨fs0, journal0, [], false⟩ st hfold
      simpa using this
  · intro ctx st c cs fsE hc hd
    unfold run_crate_task download_crates_with_log
    rw [hc]
    dsimp only
    rw [hd]
    dsimp only
    simp

/-- C5 amended, witness: a clean pass (upstream serves the crate again)
removes the journal file; a failing pass keeps it, extended; one failing task
appends exactly one record. -/
theorem C5_amended_witness :
    fix_download ⟨fun _ => "aa", fun _ => HttpResult.ok [1], false, false, false,
        "d", "crates", "idx", [("idx/3/f/foo", [⟨"foo", "1.0.0", some "cs"⟩])], "t1"⟩
        none [⟨"foo", "1.0.0", "t0"⟩] []
      = some ([("crates/foo/foo-1.0.0.crate", [1])], none)
    ∧ (fix_download ⟨fun _ => "aa", fun _ => HttpResult.connErr, false, false, false,
        "d", "crates", "idx", [("idx/3/f/foo", [⟨"foo", "1.0.0", some "cs"⟩])], "t1"⟩
        none [⟨"foo", "1.0.0", "t0"⟩] []
      = some ([], some [⟨"foo", "1.0.0", "t0"⟩, ⟨"foo", "1.0.0", "t1"⟩])
      ∧ ∃ t, [(⟨"foo", "1.0.0", "t0"⟩ : ErrorCrate), ⟨"foo", "1.0.0", "t1"⟩]
          = [⟨"foo", "1.0.0", "t0"⟩] ++ t)
    ∧ run_crate_task ⟨fun _ => "aa", fun _ => HttpResult.connErr, false, false, false,
        "d", "crates", "idx", [("idx/3/f/foo", [⟨"foo", "1.0.0", some "cs"⟩])], "t1"⟩
        ⟨[], [], [], false⟩ ⟨"foo", "1.0.0", some "cs"⟩
      = ⟨[], [⟨"foo", "1.0.0", "t1"⟩], [], true⟩ := by
  refine ⟨?_, ?_, ?_⟩
  · exact C5_amended.1 _ [⟨"foo", "1.0.0", "t0"⟩] []
      ⟨[("crates/foo/foo-1.0.0.crate", [1])], [⟨"foo", "1.0.0", "t0"⟩], ["foo"], false⟩
      rfl rfl
  · exact C5_amended.2.1 _ [⟨"foo", "1.0.0", "t0"⟩] []
      ⟨[], [⟨"foo", "1.0.0", "t0"⟩, ⟨"foo", "1.0.0", "t1"⟩], ["foo"], true⟩
      rfl rfl
  · exact C5_amended.2.2 _ ⟨[], [], [], false⟩ ⟨"foo", "1.0.0", some "cs"⟩ "cs"
      [] rfl rfl

/-- The index path rule exactly as the specification states it (§3):
`<|c|>/<c>` for a one- or two-character name, `3/<c[0]>/<c>` for a
three-character name, `<c[0..2]>/<c[2..4]>/<c>` otherwise. -/
def spec_index_path (c : String) : String :=
  if c.length = 1 ∨ c.length = 2 then toString c.length ++ "/" ++ c
  else if c.length = 3 then "3/" ++ c.take 1 ++ "/" ++ c
  else c.take 2 ++ "/" ++ (c.drop 2).take 2 ++ "/" ++ c

/-- C8.  For every non-empty crate name the code's `index_suffix` yields the
spec's length-based index path, and the local archive path derived for a
`(name, version)` task is exactly `crates/<name>/<name>-<version>.crate`
(the `crates` root joined with `<name>` and `<name>-<version>.crate`). -/
theorem C8_path_conventions (c : String) (hc : 1 ≤ c.length) (e : IndexFile) :
    index_suffix c = some (spec_index_path c)
    ∧ crate_file_path "crates" e
      = "crates" ++ "/" ++ e.name ++ "/" ++ e.name ++ "-" ++ e.vers ++ ".crate" := by
  constructor
  · unfold index_suffix spec_index_path
    have h0 : ¬ c.length = 0 := by omega
    by_cases h12 : c.length = 1 ∨ c.length = 2
    · have h2 : c.length ≤ 2 := by omega
      simp [h0, h2, h12]
    · have h2 : ¬ c.length ≤ 2 := by omega
      by_cases h3 : c.length = 3
      · simp only [h3]
        rfl
      · simp [h0, h2, h12, h3]
  · rfl

/-- C8, witness at the four length classes. -/
theorem C8_path_conventions_witness :
    (index_suffix "a" = some (spec_index_path "a")
      ∧ crate_file_path "crates" ⟨"a", "0.1.0", none⟩
        = "crates" ++ "/" ++ "a" ++ "/" ++ "a" ++ "-" ++ "0.1.0" ++ ".crate")
    ∧ (index_suffix "ab" = some (spec_index_path "ab")
      ∧ crate_file_path "crates" ⟨"ab", "0.1.0", none⟩
        = "crates" ++ "/" ++ "ab" ++ "/" ++ "ab" ++ "-" ++ "0.1.0" ++ ".crate")
    ∧ (index_suffix "abc" = some (spec_index_path "abc")
      ∧ crate_file_path "crates" ⟨"abc", "0.1.0", none⟩
        = "crates" ++ "/" ++ "abc" ++ "/" ++ "abc" ++ "-" ++ "0.1.0" ++ ".crate")
    ∧ (index_suffix "serde" = some (spec_index_path "serde")
      ∧ crate_file_path "crates" ⟨"serde", "1.0.0", none⟩
        = "crates" ++ "/" ++ "serde" ++ "/" ++ "serde" ++ "-" ++ "1.0.0" ++ ".crate") :=
  ⟨C8_path_conventions "a" (by decide) ⟨"a", "0.1.0", none⟩,
   C8_path_conventions "ab" (by decide) ⟨"ab", "0.1.0", none⟩,
   C8_path_conventions "abc" (by decide) ⟨"abc", "0.1.0", none⟩,
   C8_path_conventions "serde" (by decide) ⟨"serde", "1.0.0", none⟩⟩

/-- One `[pkg.<name>.target.<triple>]` table of a channel manifest
(src/handler/channel.rs:41-52). -/
structure Target where
  available : Bool
  url : Option String
  hash : Option String
  xz_url : Option String
  xz_hash : Option String
deriving DecidableEq, Repr

/-- One `pkg` table (src/handler/channel.rs:35-39); the `target` map is
modelled as an association list of target triples. -/
structure Pkg where
  version : String
  target : List (String × Target)
deriving DecidableEq, Repr

/-- A parsed channel manifest (src/handler/channel.rs:27-33). -/
structure Channel where
  manifest_version : String
  date : String
  pkg : List (String × Pkg)
deriving DecidableEq, Repr

/-- The per-target task emission inside `parse_channel_file`
(src/handler/channel.rs:234-246): the xz pair is pushed whenever both fields
are present; the plain pair is pushed whenever both fields are present and
both are non-empty. -/
def target_tasks (t : Target) : List (String × String) :=
  (match t.xz_url, t.xz_hash with
   | some u, some h => [(u, h)]
   | _, _ => []) ++
  (match t.url, t.hash with
   | some u, some h => if u ≠ "" ∧ h ≠ "" then [(u, h)] else []
   | _, _ => [])

/-- `parse_channel_file` (src/handler/channel.rs:225-251): flatten the
`pkg × target` table tree into `(url, hash)` download tasks. -/
def parse_channel_file (c : Channel) : List (String × String) :=
  c.pkg.flatMap (fun p => p.2.target.flatMap (fun tt => target_tasks tt.2))

/-- C2, counterexample.  A manifest whose only target has `available = false`
and an xz pair of two empty strings still yields the task `("", "")`: neither
`available` nor xz emptiness is checked. -/
theorem C2_counterexample :
    parse_channel_file ⟨"2", "2024-01-01",
        [("rust", ⟨"1.0.0", [("x86_64-unknown-linux-gnu",
          ⟨false, none, none, some "", some ""⟩)]⟩)]⟩
      = [("", "")]
    ∧ (∀ p ∈ (⟨"2", "2024-01-01",
        [("rust", ⟨"1.0.0", [("x86_64-unknown-linux-gnu",
          ⟨false, none, none, some "", some ""⟩)]⟩)]⟩ : Channel).pkg,
        ∀ t ∈ p.2.target, t.2.available = false) :=
  ⟨rfl, by decide⟩

theorem mem_target_tasks (t : Target) (u h : String) :
    (u, h) ∈ target_tasks t ↔
      (t.xz_url = some u ∧ t.xz_hash = some h)
      ∨ (t.url = some u ∧ t.hash = some h ∧ u ≠ "" ∧ h ≠ "") := by
  unfold target_tasks
  cases hxu : t.xz_url <;> cases hxh : t.xz_hash <;>
    cases hu : t.url <;> cases hh : t.hash <;>
      simp_all <;> aesop

/-- C2, amended.  A `(url, hash)` task is emitted exactly when some target of
some package supplies it as its xz pair with both fields present — neither
`available` nor emptiness being checked for that pair — or as its plain pair
with both fields present and non-empty, `available` again unchecked. -/
theorem C2_amended (c : Channel) (u h : String) :
    (u, h) ∈ parse_channel_file c ↔
      ∃ p ∈ c.pkg, ∃ t ∈ p.2.target,
        (t.2.xz_url = some u ∧ t.2.xz_hash = some h)
        ∨ (t.2.url = some u ∧ t.2.hash = some h ∧ u ≠ "" ∧ h ≠ "") := by
  unfold parse_channel_file
  simp only [List.mem_flatMap, mem_target_tasks]

/-- The channel plan of `sync_rust_toolchain` (src/handler/channel.rs:79-128):
the ordered list of `sync_channel` invocations (the retention clean pass is
separate).  Dates are day numbers; `toString` of the day stands in for
chrono's `YYYY-MM-DD` rendering of `NaiveDate`, and `iter_days()` from
`start` enumerates `start, start+1, …`.  The history branch takes
`duration_days = (today - start_date).num_days()` elements of that
iterator. -/
def sync_rust_toolchain_plan (version : Option String) (sync_history : Bool)
    (history_start : Option Nat) (today : Nat) (init : Bool)
    (sync_stable_versions : List String) : List String :=
  match version with
  | some v => [v]
  | none =>
    if sync_history then
      match history_start with
      | some start =>
        if start ≤ today then
          (List.range (today - start)).flatMap
            (fun i => ["beta-" ++ toString (start + i),
                       "nightly-" ++ toString (start + i)])
        else []
      | none => []
    else
      ["stable", "beta", "nightly"]
        ++ (if init then sync_stable_versions else [])

/-- C6, counterexample.  With `history_start_date` equal to today (on or
before it, as the claim requires), `duration_days = 0`, so `take 0` empties
the day iterator: no `beta-<today>`/`nightly-<today>` sync happens although
today lies in the claimed inclusive range. -/
theorem C6_counterexample :
    sync_rust_toolchain_plan none true (some 100) 100 false [] = []
    ∧ ("beta-" ++ toString 100)
        ∉ sync_rust_toolchain_plan none true (some 100) 100 false [] :=
  ⟨rfl, by decide⟩

/-- C6, amended.  With the history flag set and `history_start_date ≤ today`,
the channel plan is exactly one `beta-<d>` and one `nightly-<d>` sync for
every day `d` in the half-open range from `history_start_date` up to but
excluding today (`take (today - start)` of the day iterator); in particular
each day `start ≤ d < today` gets both syncs. -/
theorem C6_amended (start today : Nat) (hst : start ≤ today) (init : Bool)
    (pinned : List String) :
    sync_rust_toolchain_plan none true (some start) today init pinned
      = (List.range (today - start)).flatMap
          (fun i => ["beta-" ++ toString (start + i),
                     "nightly-" ++ toString (start + i)])
    ∧ ∀ d, start ≤ d → d < today →
        ("beta-" ++ toString d)
            ∈ sync_rust_toolchain_plan none true (some start) today init pinned
        ∧ ("nightly-" ++ toString d)
            ∈ sync_rust_toolchain_plan none true (some start) today init pinned := by
  have hplan : sync_rust_toolchain_plan none true (some start) today init pinned
      = (List.range (today - start)).flatMap
          (fun i => ["beta-" ++ toString (start + i),
                     "nightly-" ++ toString (start + i)]) := by
    unfold sync_rust_toolchain_plan
    simp [hst]
  refine ⟨hplan, ?_⟩
  intro d hd1 hd2
  have hidx : d - start ∈ List.range (today - start) := by
    rw [List.mem_range]; omega
  have hds : start + (d - start) = d := by omega
  constructor <;>
    · rw [hplan, List.mem_flatMap]
      exact ⟨d - start, hidx, by rw [hds]; simp⟩

/-- C6 amended, witness: start two days before today syncs exactly the two
earlier days, and day `start` itself gets both syncs. -/
theorem C6_amended_witness :
    sync_rust_toolchain_plan none true (some 5) 7 false []
      = (List.range (7 - 5)).flatMap
          (fun i => ["beta-" ++ toString (5 + i), "nightly-" ++ toString (5 + i)])
    ∧ ∀ d, 5 ≤ d → d < 7 →
        ("beta-" ++ toString d) ∈ sync_rust_toolchain_plan none true (some 5) 7 false []
        ∧ ("nightly-" ++ toString d) ∈ sync_rust_toolchain_plan none true (some 5) 7 false [] :=
  C6_amended 5 7 (by decide) false []

/-- Does `s` start with `pat`?  (Rust `str::starts_with`; also the kernel of
the substring and suffix tests below.  Lean's own string-search functions use
well-founded position recursion, so structural char-list versions are defined
here to keep everything evaluable.) -/
def leading_match : List Char → List Char → Bool
  | _, [] => true
  | [], _ :: _ => false
  | c :: cs, p :: ps => (c == p) && leading_match cs ps

/-- Does `pat` occur contiguously in `s`?  (Rust `str::contains`.) -/
def occurs_in (s pat : List Char) : Bool :=
  match s with
  | [] => leading_match [] pat
  | _ :: rest => leading_match s pat || occurs_in rest pat

/-- Rust `str::contains` on strings. -/
def contains_sub (s pat : String) : Bool :=
  occurs_in s.toList pat.toList

/-- Rust `char`-pattern `str::split`: always at least one (possibly empty)
piece. -/
def split_on_char (sep : Char) : List Char → List (List Char)
  | [] => [[]]
  | c :: cs =>
    match split_on_char sep cs with
    | [] => [[]]
    | p :: ps => if c == sep then [] :: p :: ps else (c :: p) :: ps

/-- Joining pieces back with a separator (`Vec::join` / path display). -/
def join_with (sep : Char) : List (List Char) → List Char
  | [] => []
  | [p] => p
  | p :: ps => p ++ sep :: join_with sep ps

/-- Rust `str::replace(pat, "")`: delete every non-overlapping occurrence of
`pat`, scanning left to right.  The first argument is fuel (the length of the
remaining input bounds the recursion structurally). -/
def remove_all_go (pat : List Char) : Nat → List Char → List Char
  | 0, _ => []
  | _ + 1, [] => []
  | fuel + 1, c :: cs =>
    if pat ≠ [] ∧ leading_match (c :: cs) pat then
      remove_all_go pat fuel (List.drop (pat.length - 1) cs)
    else
      c :: remove_all_go pat fuel cs

/-- Rust `s.replace(pat, "")`. -/
def remove_all (s pat : List Char) : List Char :=
  remove_all_go pat s.length s

/-- Response of `handlers::return_files`
(src/server/file_server.rs:315-351): a 200 streaming the local file, a 302
redirect, or the `not_found` rejection that becomes the 404 reply. -/
inductive ServeOutcome where
  | localFile (b : Bytes)
  | redirect (u : String)
  | notFound
deriving DecidableEq, Repr

/-- The redirect URL built for a non-`localhost` domain
(src/server/file_server.rs:332-346): `<domain>/<file_path>`; for a crates
request against a `myhuaweicloud.com` domain, `encode_huaweicloud_url`
(src/download.rs:146-157) percent-encodes the final path segment via the
external `byte_serialize`, modelled by the parameter `enc`, provided the URL
path starts with `/crates`. -/
def redirect_url (enc : String → String) (domain file_path : String)
    (is_crates : Bool) : String :=
  if is_crates && contains_sub domain "myhuaweicloud.com"
      && leading_match file_path.toList "crates".toList then
    let parts := split_on_char '/' file_path.toList
    domain ++ "/" ++ String.mk (join_with '/'
      (parts.dropLast ++ [(enc (String.mk (parts.getLastD []))).toList]))
  else
    domain ++ "/" ++ file_path

/-- `handlers::return_files` (src/server/file_server.rs:315-351): walk
`serve_domains` in order; `"localhost"` tries the local disk copy under
`work_dir`; the first non-`localhost` domain is answered immediately with a
302 — no upstream request is ever made — and exhausting the list rejects with
`not_found`. -/
def return_files (enc : String → String) (fs : FS) (serve_domains : List String)
    (work_dir file_path : String) (is_crates : Bool) : ServeOutcome :=
  match serve_domains with
  | [] => ServeOutcome.notFound
  | domain :: rest =>
    if domain = "localhost" then
      match fsRead fs (work_dir ++ "/" ++ file_path) with
      | some b => ServeOutcome.localFile b
      | none => return_files enc fs rest work_dir file_path is_crates
    else
      ServeOutcome.redirect (redirect_url enc domain file_path is_crates)

theorem return_files_nil (enc : String → String) (fs : FS) (wd fp : String)
    (ic : Bool) : return_files enc fs [] wd fp ic = ServeOutcome.notFound :=
  rfl

theorem return_files_cons_localhost_hit (enc : String → String) (fs : FS)
    (rest : List String) (wd fp : String) (ic : Bool) (b : Bytes)
    (hb : fsRead fs (wd ++ "/" ++ fp) = some b) :
    return_files enc fs ("localhost" :: rest) wd fp ic
      = ServeOutcome.localFile b := by
  unfold return_files
  rw [if_pos rfl, hb]

theorem return_files_cons_localhost_miss (enc : String → String) (fs : FS)
    (rest : List String) (wd fp : String) (ic : Bool)
    (hn : fsRead fs (wd ++ "/" ++ fp) = none) :
    return_files enc fs ("localhost" :: rest) wd fp ic
      = return_files enc fs rest wd fp ic := by
  conv_lhs => unfold return_files
  rw [if_pos rfl, hn]

theorem return_files_cons_remote (enc : String → String) (fs : FS)
    (d : String) (rest : List String) (wd fp : String) (ic : Bool)
    (hd : d ≠ "localhost") :
    return_files enc fs (d :: rest) wd fp ic
      = ServeOutcome.redirect (redirect_url enc d fp ic) := by
  unfold return_files
  rw [if_neg hd]

/-- C4, counterexample.  With `serve_domains = ["https://mirror.example"]`
and no local file, the server answers 302 to that domain no matter what the
remote would answer: in the remote-status world `remote2xx = fun _ => false`
(every upstream answers non-2xx) the redirect is still issued, so "redirect
only if it is the first domain returning 2xx" is false — the code never
probes the remote at all. -/
theorem C4_counterexample :
    ¬ (∀ remote2xx : String → Bool,
        return_files id [] ["https://mirror.example"] "wd"
            "crates/footool/footool-0.2.0.crate" true
          = ServeOutcome.redirect
              ("https://mirror.example" ++ "/" ++ "crates/footool/footool-0.2.0.crate") →
        remote2xx ("https://mirror.example" ++ "/" ++ "crates/footool/footool-0.2.0.crate")
          = true) := by
  intro hclaim
  have h2 := hclaim (fun _ => false)
    (return_files_cons_remote id [] "https://mirror.example" [] "wd"
      "crates/footool/footool-0.2.0.crate" true (by decide))
  simp at h2

/-- C4, amended.  The server tries `serve_domains` in their listed order,
`"localhost"` meaning the local disk copy; the first non-`localhost` domain
is answered with an unconditional 302 redirect (no upstream status is
consulted), and 404 is returned exactly when the walk exhausts the list —
every entry is `"localhost"` and the local file is absent, or the list is
empty. -/
theorem C4_amended (enc : String → String) (fs : FS) (ds : List String)
    (wd fp : String) (ic : Bool) :
    (∀ b, fsRead fs (wd ++ "/" ++ fp) = some b →
      return_files enc fs ds wd fp ic =
        (if ds.takeWhile (fun d => d == "localhost") = [] then
          match ds.dropWhile (fun d => d == "localhost") with
          | [] => ServeOutcome.notFound
          | d :: _ => ServeOutcome.redirect (redirect_url enc d fp ic)
        else ServeOutcome.localFile b))
    ∧ (fsRead fs (wd ++ "/" ++ fp) = none →
      return_files enc fs ds wd fp ic =
        (match ds.dropWhile (fun d => d == "localhost") with
         | [] => ServeOutcome.notFound
         | d :: _ => ServeOutcome.redirect (redirect_url enc d fp ic))) := by
  induction ds with
  | nil =>
    exact ⟨fun b hb => return_files_nil enc fs wd fp ic,
           fun hn => return_files_nil enc fs wd fp ic⟩
  | cons d rest ih =>
    constructor
    · intro b hb
      by_cases hd : d = "localhost"
      · subst hd
        rw [return_files_cons_localhost_hit enc fs rest wd fp ic b hb,
          List.takeWhile_cons]
        simp
      · have hdb : (d == "localhost") = false := by
          simp [hd]
        rw [return_files_cons_remote enc fs d rest wd fp ic hd,
          List.takeWhile_cons, List.dropWhile_cons, hdb]
        simp
    · intro hn
      by_cases hd : d = "localhost"
      · subst hd
        rw [return_files_cons_localhost_miss enc fs rest wd fp ic hn,
          List.dropWhile_cons]
        simpa using ih.2 hn
      · have hdb : (d == "localhost") = false := by
          simp [hd]
        rw [return_files_cons_remote enc fs d rest wd fp ic hd,
          List.dropWhile_cons, hdb]
        simp

/-- C4 amended, witness: with `serve_domains = ["localhost",
"https://mirror.example"]` a present file is served from disk, and once the
file is gone the same request is answered with the 302 to the mirror. -/
theorem C4_amended_witness :
    return_files id [("wd/crates/footool/footool-0.2.0.crate", [1])]
        ["localhost", "https://mirror.example"] "wd"
        "crates/footool/footool-0.2.0.crate" true
      = ServeOutcome.localFile [1]
    ∧ return_files id [] ["localhost", "https://mirror.example"] "wd"
        "crates/footool/footool-0.2.0.crate" true
      = ServeOutcome.redirect
          (redirect_url id "https://mirror.example"
            "crates/footool/footool-0.2.0.crate" true) :=
  ⟨(C4_amended id [("wd/crates/footool/footool-0.2.0.crate", [1])]
      ["localhost", "https://mirror.example"] "wd"
      "crates/footool/footool-0.2.0.crate" true).1 [1] rfl,
   (C4_amended id [] ["localhost", "https://mirror.example"] "wd"
      "crates/footool/footool-0.2.0.crate" true).2 rfl⟩

/-- `split[split.len() - 1]`: the last piece of a split (a split is never
empty). -/
def last_piece : List (List Char) → List Char
  | [] => []
  | [p] => p
  | _ :: p :: ps => last_piece (p :: ps)

theorem last_piece_concat (l : List (List Char)) (x : List Char) :
    last_piece (l ++ [x]) = x := by
  induction l with
  | nil => rfl
  | cons p ps ih =>
    cases ps with
    | nil => rfl
    | cons q qs => simpa using ih

theorem split_on_char_ne_nil (sep : Char) (l : List Char) :
    split_on_char sep l ≠ [] := by
  cases l with
  | nil => simp [split_on_char]
  | cons c cs =>
    unfold split_on_char
    cases split_on_char sep cs with
    | nil => simp
    | cons p ps =>
      by_cases hc : (c == sep) = true <;> simp [hc]

theorem split_on_char_cons (sep d : Char) (ds : List Char) :
    split_on_char sep (d :: ds) =
      match split_on_char sep ds with
      | [] => [[]]
      | p :: ps => if d == sep then [] :: p :: ps else (d :: p) :: ps :=
  rfl

/-- Appending one character to the input appends to the split: a separator
opens a fresh empty piece, any other character extends the last piece. -/
theorem split_on_char_append_one (sep : Char) (ys : List Char) (c : Char) :
    split_on_char sep (ys ++ [c]) =
      if c == sep then split_on_char sep ys ++ [[]]
      else (split_on_char sep ys).dropLast
            ++ [last_piece (split_on_char sep ys) ++ [c]] := by
  induction ys with
  | nil =>
    by_cases hc : (c == sep) = true <;>
      simp [split_on_char, last_piece, hc]
  | cons d ds ih =>
    rw [List.cons_append, split_on_char_cons, ih, split_on_char_cons]
    rcases hq : split_on_char sep ds with _ | ⟨q, qs⟩
    · exact absurd hq (split_on_char_ne_nil sep ds)
    · by_cases hc : (c == sep) = true <;> by_cases hd : (d == sep) = true <;>
        rcases qs with _ | ⟨r, rs⟩ <;>
          simp [hc, hd, last_piece]

/-- The last piece of the `'-'`-split of `l` is the suffix of `l` after its
last separator (the whole of `l` when no separator occurs). -/
theorem last_piece_split (sep : Char) (l : List Char) :
    last_piece (split_on_char sep l)
      = (l.reverse.takeWhile (fun ch => ch != sep)).reverse := by
  induction l using List.reverseRecOn with
  | nil => rfl
  | append_singleton ys c ih =>
    rw [split_on_char_append_one]
    by_cases hc : (c == sep) = true
    · rw [if_pos hc, last_piece_concat]
      have : (c != sep) = false := by
        simp_all
      simp [List.takeWhile_cons, this]
    · rw [if_neg hc, last_piece_concat]
      have : (c != sep) = true := by
        simp_all
      simp [List.takeWhile_cons, this, ih]

/-- Version derivation of the `GET /crates/<name>/<file>` route (`crates_2`,
src/server/file_server.rs:203-209): split `<file>` on `'-'`, take the last
piece (`split[split.len() - 1]`), and delete every occurrence of `".crate"`
from it — Rust `str::replace` replaces all occurrences, not only a suffix. -/
def crates_route_version (file : String) : String :=
  String.mk (remove_all (last_piece (split_on_char '-' file.toList)) ".crate".toList)

/-- The path both `/crates` routes hand to `return_files`
(src/server/file_server.rs:215-218): `crates/<name>/<name>-<version>.crate`,
the version being derived from the requested filename for the
`/crates/<name>/<file>` form. -/
def crates_route_path (name file : String) : String :=
  "crates" ++ "/" ++ name ++ "/" ++ name ++ "-" ++ crates_route_version file
    ++ ".crate"

/-- The claim's version derivation: the substring after the last `'-'` with
only a trailing `".crate"` suffix removed. -/
def claimed_route_version (file : String) : String :=
  let v := (file.toList.reverse.takeWhile (fun ch => ch != '-')).reverse
  if leading_match v.reverse ".crate".toList.reverse then
    String.mk (v.take (v.length - 6))
  else
    String.mk v

/-- C10, counterexample.  For the request file `foo-1.crate.crate` the code
derives version `1` (every `".crate"` occurrence deleted) and serves
`crates/foo/foo-1.crate`, while the claim's suffix-only rule derives
`1.crate` and the path `crates/foo/foo-1.crate.crate`. -/
theorem C10_counterexample :
    crates_route_version "foo-1.crate.crate" = "1"
    ∧ claimed_route_version "foo-1.crate.crate" = "1.crate"
    ∧ crates_route_path "foo" "foo-1.crate.crate" = "crates/foo/foo-1.crate"
    ∧ crates_route_path "foo" "foo-1.crate.crate"
        ≠ "crates" ++ "/" ++ "foo" ++ "/" ++ "foo" ++ "-"
            ++ claimed_route_version "foo-1.crate.crate" ++ ".crate" :=
  ⟨by decide, by decide, by decide, by decide⟩

/-- C10, amended.  The route derives the version as the substring of `<file>`
after its last `'-'` (the whole filename when it has no `'-'`) with every
occurrence of `".crate"` removed, and serves (or redirects for) exactly
`crates/<name>/<name>-<version>.crate`; every other part of the requested
filename is ignored. -/
theorem C10_amended (name file : String) :
    crates_route_version file
      = String.mk (remove_all
          ((file.toList.reverse.takeWhile (fun ch => ch != '-')).reverse)
          ".crate".toList)
    ∧ crates_route_path name file
      = "crates" ++ "/" ++ name ++ "/" ++ name ++ "-"
          ++ crates_route_version file ++ ".crate" := by
  constructor
  · unfold crates_route_version
    rw [last_piece_split]
  · rfl

/-- One dependency of a publish body (src/server/model.rs:57-87).  Only the
`kind` string decides anything: `save_crate_index`'s serde round-trip
(src/server/file_server.rs:459-460) re-reads it as the lowercase
`DependencyKind` enum (src/handler/crates_file.rs:137-143) and the
`.unwrap()` panics on any value outside `normal`/`build`/`dev`; every other
dependency field round-trips unconditionally. -/
structure Dep where
  kind : String
deriving DecidableEq, Repr

/-- The publish metadata fields the handler reads
(src/server/model.rs:5-55): `name`, `vers` and the dependencies (whose
`kind` strings gate the index conversion); the remaining manifest fields are
carried through serde and never consulted. -/
structure CratesPublish where
  name : String
  vers : String
  deps : List Dep
deriving DecidableEq, Repr

/-- The three `DependencyKind` values the index conversion accepts. -/
def valid_dep_kind (k : String) : Bool :=
  k == "normal" || k == "build" || k == "dev"

/-- A 32-bit little-endian length prefix, as four bytes. -/
def u32le (n : Nat) : Bytes :=
  [n % 256, n / 256 % 256, n / 256 ^ 2 % 256, n / 256 ^ 3 % 256]

/-- `utils::get_usize_from_bytes` (src/server/file_server.rs:449-453): the
first four bytes read as a little-endian integer (zero-extended into a
`usize`). -/
def get_usize_from_bytes (b : Bytes) : Nat :=
  b.getD 0 0 + 256 * b.getD 1 0 + 256 ^ 2 * b.getD 2 0 + 256 ^ 3 * b.getD 3 0

/-- What `utils::save_crate_index` (src/server/file_server.rs:455-466)
writes: the publish record converted through a serde round-trip to an index
line whose `cksum` is the hex SHA-256 digest of the crate bytes (`fs::write`
replaces the index file with this single record).  `none` is the `.unwrap()`
panic of the round-trip when some dependency `kind` lies outside
`normal`/`build`/`dev`: nothing is written then. -/
def save_crate_index_record (h : HashFn) (j : CratesPublish) (content : Bytes) :
    Option IndexFile :=
  if j.deps.all (fun d => valid_dep_kind d.kind) then
    some ⟨j.name, j.vers, some (h content)⟩
  else
    none

/-- The two writes plus reply of a successful publish. -/
structure PublishEffects where
  index_path : String
  index_record : IndexFile
  crate_path : String
  crate_bytes : Bytes
deriving DecidableEq, Repr

/-- Reply of the publish route: the default 200 publish response together
with the performed writes, or the errors envelope built from the serde
message. -/
inductive PublishReply where
  | ok (eff : PublishEffects)
  | errors
deriving DecidableEq, Repr

/-- `filters::publish` (src/server/file_server.rs:104-139).  The body is a
`u32 LE` length, the JSON metadata, a second `u32 LE` length and the raw
crate bytes; all four reads happen before the match on the parse result, so a
short body panics (`none`, from `copy_to_bytes`).  On parse success the
handler writes the derived index line under `crates.io-index/<index path>`
and the raw bytes under `crates/<name>/<name>-<vers>.crate` inside the work
dir, replying with the default publish response; on parse failure it replies
with the errors envelope.  `parse` is external serde; inside
`save_crate_index`, `index_suffix` panics on an empty name (line 456) and
the serde round-trip panics on an invalid dependency kind (lines 459-460),
in that order, before anything is written. -/
def publish (h : HashFn) (parse : Bytes → Option CratesPublish)
    (work_dir : String) (body : Bytes) : Option PublishReply :=
  if body.length < 4 then none else
  let json_len := get_usize_from_bytes (body.take 4)
  let rest := body.drop 4
  if rest.length < json_len then none else
  let json := rest.take json_len
  let rest2 := rest.drop json_len
  if rest2.length < 4 then none else
  let crate_len := get_usize_from_bytes (rest2.take 4)
  let rest3 := rest2.drop 4
  if rest3.length < crate_len then none else
  let content := rest3.take crate_len
  match parse json with
  | some j =>
    match index_suffix j.name with
    | none => none
    | some suffix =>
      match save_crate_index_record h j content with
      | none => none
      | some rec =>
        some (PublishReply.ok
          ⟨work_dir ++ "/" ++ "crates.io-index" ++ "/" ++ suffix,
           rec,
           work_dir ++ "/" ++ "crates" ++ "/" ++ j.name ++ "/" ++ j.name ++ "-"
             ++ j.vers ++ ".crate",
           content⟩)
  | none => some PublishReply.errors

theorem get_usize_u32le (n : Nat) (hn : n < 2 ^ 32) :
    get_usize_from_bytes (u32le n) = n := by
  unfold get_usize_from_bytes u32le
  simp [List.getD]
  omega

/-- Evaluating `publish` on a well-formed body: the four reads peel off the
two length-prefixed segments, and the reply is decided by the parse and the
two panic points of `save_crate_index`. -/
theorem publish_wf (h : HashFn) (parse : Bytes → Option CratesPublish)
    (work_dir : String) (J B : Bytes)
    (hJ : J.length < 2 ^ 32) (hB : B.length < 2 ^ 32) :
    publish h parse work_dir (u32le J.length ++ (J ++ (u32le B.length ++ B)))
      = (match parse J with
        | some j =>
          match index_suffix j.name with
          | none => none
          | some suffix =>
            match save_crate_index_record h j B with
            | none => none
            | some rec =>
              some (PublishReply.ok
                ⟨work_dir ++ "/" ++ "crates.io-index" ++ "/" ++ suffix,
                 rec,
                 work_dir ++ "/" ++ "crates" ++ "/" ++ j.name ++ "/" ++ j.name
                   ++ "-" ++ j.vers ++ ".crate",
                 B⟩)
        | none => some PublishReply.errors) := by
  unfold publish
  have e1 : (u32le J.length ++ (J ++ (u32le B.length ++ B))).take 4
      = u32le J.length := rfl
  have e2 : (u32le J.length ++ (J ++ (u32le B.length ++ B))).drop 4
      = J ++ (u32le B.length ++ B) := rfl
  have l0 : ¬ ((u32le J.length ++ (J ++ (u32le B.length ++ B))).length < 4) := by
    simp [u32le]
  rw [if_neg l0]
  simp only [e1, e2, get_usize_u32le J.length hJ]
  have l1 : ¬ ((J ++ (u32le B.length ++ B)).length < J.length) := by
    simp [u32le]
  rw [if_neg l1]
  simp only [List.take_left, List.drop_left]
  have e3 : (u32le B.length ++ B).take 4 = u32le B.length := rfl
  have e4 : (u32le B.length ++ B).drop 4 = B := rfl
  have l2 : ¬ ((u32le B.length ++ B).length < 4) := by
    simp [u32le]
  rw [if_neg l2]
  simp only [e3, e4, get_usize_u32le B.length hB]
  have l3 : ¬ (B.length < B.length) := by
    omega
  rw [if_neg l3]
  simp only [List.take_length]

/-- C7, counterexample.  A body whose JSON parses — `bar 0.1.0` with one
dependency whose `kind` is `"banana"` — makes the index conversion's
`.unwrap()` panic: no index record is written, no crate file is written, and
neither the 200 response nor the errors envelope is produced, so "whose JSON
parses: an index file is written … and the crate bytes are written" fails. -/
theorem C7_counterexample :
    (fun b => if b == [1, 2] then
        some (⟨"bar", "0.1.0", [⟨"banana"⟩]⟩ : CratesPublish) else none) [1, 2]
      = some ⟨"bar", "0.1.0", [⟨"banana"⟩]⟩
    ∧ publish (fun _ => "HB")
        (fun b => if b == [1, 2] then
          some ⟨"bar", "0.1.0", [⟨"banana"⟩]⟩ else none)
        "wd" (u32le 2 ++ ([1, 2] ++ (u32le 1 ++ [42])))
      = none :=
  ⟨rfl, rfl⟩

/-- C7, amended.  For every publish body laid out as
`u32 LE |J| · J · u32 LE |B| · B` whose JSON parses and whose dependency
kinds all lie in `normal`/`build`/`dev`, the handler writes under the §3
index path an index record for `(name, vers)` whose `cksum` is the hex
SHA-256 of the crate bytes `B`, and writes `B` byte-for-byte to
`crates/<name>/<name>-<vers>.crate`; a body whose JSON fails to parse is
answered with the errors envelope and writes nothing; a body whose JSON
parses but carries any other dependency kind panics the handler inside the
index conversion, before any write and before any response. -/
theorem C7_publish (h : HashFn) (parse : Bytes → Option CratesPublish)
    (work_dir : String) (J B : Bytes) (j : CratesPublish) (suffix : String)
    (hJ : J.length < 2 ^ 32) (hB : B.length < 2 ^ 32)
    (hparse : parse J = some j) (hsuffix : index_suffix j.name = some suffix)
    (hdeps : j.deps.all (fun d => valid_dep_kind d.kind) = true) :
    publish h parse work_dir (u32le J.length ++ (J ++ (u32le B.length ++ B)))
      = some (PublishReply.ok
          ⟨work_dir ++ "/" ++ "crates.io-index" ++ "/" ++ suffix,
           ⟨j.name, j.vers, some (h B)⟩,
           work_dir ++ "/" ++ "crates" ++ "/" ++ j.name ++ "/" ++ j.name
             ++ "-" ++ j.vers ++ ".crate",
           B⟩)
    ∧ (∀ J' : Bytes, J'.length < 2 ^ 32 → parse J' = none →
        publish h parse work_dir (u32le J'.length ++ (J' ++ (u32le B.length ++ B)))
          = some PublishReply.errors)
    ∧ (∀ (J' : Bytes) (j' : CratesPublish), J'.length < 2 ^ 32 →
        parse J' = some j' →
        j'.deps.all (fun d => valid_dep_kind d.kind) = false →
        publish h parse work_dir (u32le J'.length ++ (J' ++ (u32le B.length ++ B)))
          = none) := by
  refine ⟨?_, ?_, ?_⟩
  · rw [publish_wf h parse work_dir J B hJ hB, hparse]
    dsimp only
    rw [hsuffix]
    dsimp only
    unfold save_crate_index_record
    rw [hdeps]
    rfl
  · intro J' hJ' hparse'
    rw [publish_wf h parse work_dir J' B hJ' hB, hparse']
  · intro J' j' hJ' hparse' hbad
    rw [publish_wf h parse work_dir J' B hJ' hB, hparse']
    dsimp only
    cases hs : index_suffix j'.name with
    | none => rfl
    | some s =>
      dsimp only
      unfold save_crate_index_record
      rw [hbad]
      rfl

/-- C7, witness: publishing `bar 0.1.0` (no dependencies) with one crate byte
`42` writes the index record carrying the digest of `[42]` at `3/b/bar` and
the byte at `crates/bar/bar-0.1.0.crate`; an unparseable metadata segment
gets the errors envelope; a parseable one with a bad dependency kind panics
(writes nothing, answers nothing). -/
theorem C7_publish_witness :
    publish (fun _ => "HB")
        (fun b => if b == [1, 2] then some ⟨"bar", "0.1.0", []⟩ else none)
        "wd" (u32le 2 ++ ([1, 2] ++ (u32le 1 ++ [42])))
      = some (PublishReply.ok
          ⟨"wd" ++ "/" ++ "crates.io-index" ++ "/" ++ "3/b/bar",
           ⟨"bar", "0.1.0", some "HB"⟩,
           "wd" ++ "/" ++ "crates" ++ "/" ++ "bar" ++ "/" ++ "bar" ++ "-"
             ++ "0.1.0" ++ ".crate",
           [42]⟩)
    ∧ (∀ J' : Bytes, J'.length < 2 ^ 32 →
        (fun b => if b == [1, 2] then
          some (⟨"bar", "0.1.0", []⟩ : CratesPublish) else none) J' = none →
        publish (fun _ => "HB")
            (fun b => if b == [1, 2] then some ⟨"bar", "0.1.0", []⟩ else none)
            "wd" (u32le J'.length ++ (J' ++ (u32le 1 ++ [42])))
          = some PublishReply.errors)
    ∧ (∀ (J' : Bytes) (j' : CratesPublish), J'.length < 2 ^ 32 →
        (fun b => if b == [1, 2] then
          some (⟨"bar", "0.1.0", []⟩ : CratesPublish) else none) J' = some j' →
        j'.deps.all (fun d => valid_dep_kind d.kind) = false →
        publish (fun _ => "HB")
            (fun b => if b == [1, 2] then some ⟨"bar", "0.1.0", []⟩ else none)
            "wd" (u32le J'.length ++ (J' ++ (u32le 1 ++ [42])))
          = none) := by
  have hmain := C7_publish (fun _ => "HB")
    (fun b => if b == [1, 2] then some ⟨"bar", "0.1.0", []⟩ else none)
    "wd" [1, 2] [42] ⟨"bar", "0.1.0", []⟩ "3/b/bar"
    (by decide) (by decide) rfl (by decide) rfl
  exact hmain
